import Mathlib

/-!
Shallow embedding of the USSD session engine of
`src/nunyakata/services/nalo_solutions.py` (class `NaloSolutions`): the
session store (`_ussd_sessions`), the request dispatcher
(`handle_ussd_request`), the menu/response renderers (`create_ussd_menu`,
`create_ussd_response`) and the input validator `validate_amount`, together
with models of the Python primitives they rely on (`int(str)`, `float(str)`,
`str.split`, dict operations).

Python dictionaries are modelled as insertion-ordered association lists;
machine floats appear only through the sign test `amount <= 0`, which is
modelled exactly (including nan/inf and rounding-to-zero of tiny positive
values) without any floating-point type.
-/

namespace Nunyakata

/-- Python values that flow through the USSD session store: the sessions
hold an integer `step` and free-form `data` entries (strings or integers
in the repository's tests). -/
inductive PyVal where
  | int (n : Int)
  | str (s : String)
  deriving DecidableEq, Repr

/-- A USSD session as stored by the engine: the dict
`{"step": ..., "data": {...}}` created by `get_ussd_session`. -/
structure Session where
  step : PyVal
  data : List (String × PyVal)
  deriving DecidableEq, Repr

/-- The in-memory store `self._ussd_sessions`: a Python dict from session id
to session, modelled as an insertion-ordered association list. -/
abbrev Store := List (String × Session)

/-- Python dict lookup `d[k]` / `d.get(k)`: the first entry with the key
(a real dict has at most one). -/
def dictGet {α : Type} (d : List (String × α)) (k : String) : Option α :=
  match d with
  | [] => none
  | kv :: rest => if kv.1 = k then some kv.2 else dictGet rest k

/-- Python dict assignment `d[k] = v`: overwrite the entry in place when the
key is present, otherwise append it (dicts keep insertion order). -/
def dictSet {α : Type} (d : List (String × α)) (k : String) (v : α) :
    List (String × α) :=
  match d with
  | [] => [(k, v)]
  | kv :: rest => if kv.1 = k then (k, v) :: rest else kv :: dictSet rest k v

/-- Python `del d[k]`: drop the entry with the key (a dict holds at most one
entry per key, so dropping every match is the same operation). -/
def dictDel {α : Type} (d : List (String × α)) (k : String) :
    List (String × α) :=
  d.filter (fun kv => !(kv.1 = k))

/-- An inbound USSD event: the dict handed to `handle_ussd_request`. Each
field is optional because the handler reads them with
`session_data.get(key, default)`. -/
structure Event where
  sessionid : Option String
  msisdn : Option String
  msg : Option String
  msgtype : Option Bool
  deriving DecidableEq, Repr

/-- An outbound USSD response: the dict built by `create_ussd_response`,
with the optional `sessionid` key. -/
structure UssdResponse where
  response : String
  message : String
  sessionid : Option String
  deriving DecidableEq, Repr

/-- `create_ussd_response(message, continue_session, sessionid)`: packages
`{"response": "CON"|"END", "message": message}` and, because of the
truthiness test `if sessionid:`, adds the `sessionid` key only when the
argument is present and non-empty. -/
def create_ussd_response (message : String) (continue_session : Bool)
    (sessionid : Option String) : UssdResponse :=
  { response := if continue_session then "CON" else "END"
    message := message
    sessionid :=
      match sessionid with
      | some s => if s = "" then none else some s
      | none => none }

/-- The numbered option lines of `create_ussd_menu`: Python's
`for i, option in enumerate(options, 1): menu += f"{i}. {option}\\n"`.
The source writes `\\n` inside an ordinary (non-raw) f-string, so each line
ends with the literal two characters backslash and `n`, not a newline. -/
def menuLines : Nat → List String → String
  | _, [] => ""
  | i, opt :: rest => toString i ++ ". " ++ opt ++ "\\n" ++ menuLines (i + 1) rest

/-- `create_ussd_menu(title, options, footer)`: the title, the numbered
option lines, and (when the footer is truthy, i.e. present and non-empty)
a blank-separated footer. All separators are the literal two-character
sequence `\n` (backslash, n), as written by the source's `\\n` escapes. -/
def create_ussd_menu (title : String) (options : List String)
    (footer : Option String) : String :=
  let base := title ++ "\\n" ++ menuLines 1 options
  match footer with
  | some f => if f = "" then base else base ++ "\\n" ++ f
  | none => base

/-- `get_ussd_session(sessionid)`: return the stored session, creating and
storing `{"step": 0, "data": {}}` first when the id is unseen. The pair
carries the (possibly extended) store. -/
def get_ussd_session (sessionid : String) (st : Store) : Session × Store :=
  match dictGet st sessionid with
  | some sess => (sess, st)
  | none =>
    let fresh : Session := { step := PyVal.int 0, data := [] }
    (fresh, dictSet st sessionid fresh)

/-- One iteration of `update_ussd_session`'s loop: `"step"` overwrites the
session's top-level step, every other key is written into the `data`
sub-dict. -/
def applyField (sess : Session) (kv : String × PyVal) : Session :=
  if kv.1 = "step" then { sess with step := kv.2 }
  else { sess with data := dictSet sess.data kv.1 kv.2 }

/-- `update_ussd_session(sessionid, data)`: silently does nothing when the
id is absent; otherwise folds the field updates over the stored session
(dict items in insertion order). -/
def update_ussd_session (sessionid : String) (fields : List (String × PyVal))
    (st : Store) : Store :=
  match dictGet st sessionid with
  | none => st
  | some sess => dictSet st sessionid (fields.foldl applyField sess)

/-- `clear_ussd_session(sessionid)`: delete the entry when present, no-op
otherwise. -/
def clear_ussd_session (sessionid : String) (st : Store) : Store :=
  match dictGet st sessionid with
  | none => st
  | some _ => dictDel st sessionid

/-- Python `str.isspace` on the ASCII whitespace characters that
`int(str)`/`float(str)` strip from both ends (the Unicode space characters
they also strip cannot occur in the claims' inputs and are not modelled). -/
def pyIsSpace (c : Char) : Bool :=
  c = ' ' || c = '\t' || c = '\n' || c = '\r' || c = '\x0b' || c = '\x0c'

/-- Strip `pyIsSpace` characters from both ends, as Python's numeric
constructors do before parsing. -/
def stripPyWs (l : List Char) : List Char :=
  ((l.dropWhile pyIsSpace).reverse.dropWhile pyIsSpace).reverse

/-- Consume an optional leading sign; `true` means negative. -/
def pySign : List Char → Bool × List Char
  | '+' :: rest => (false, rest)
  | '-' :: rest => (true, rest)
  | l => (false, l)

/-- Consume a run of decimal digits with CPython's underscore rule (an
underscore must sit between two digits). Returns the value, the number of
digits, and the rest of the input; `none` when an underscore is misplaced
inside the run. -/
def digitRunGo : List Char → Nat → Nat → Option (Nat × Nat × List Char)
  | [], acc, cnt => some (acc, cnt, [])
  | c :: rest, acc, cnt =>
    if c.isDigit then digitRunGo rest (acc * 10 + (c.toNat - 48)) (cnt + 1)
    else if c = '_' then
      if cnt = 0 then some (acc, cnt, c :: rest)
      else
        match rest with
        | c2 :: rest2 =>
          if c2.isDigit then digitRunGo rest2 (acc * 10 + (c2.toNat - 48)) (cnt + 1)
          else none
        | [] => none
    else some (acc, cnt, c :: rest)

/-- Python `int(str)` in base 10: strip whitespace, optional sign, then a
non-empty digit run (underscores between digits allowed) consuming the whole
string; `ValueError` is `none`. -/
def pyInt (s : String) : Option Int :=
  let sl := pySign (stripPyWs s.data)
  match digitRunGo sl.2 0 0 with
  | some (v, cnt, []) =>
    if cnt = 0 then none else some (if sl.1 then -(v : Int) else (v : Int))
  | _ => none

/-- The value classes `float(str)` can produce, as far as the engine
observes them: nan, the two infinities, or a finite value represented by
the exact rational value of the literal. -/
inductive PFloat where
  | nan
  | inf
  | ninf
  | fin (q : ℚ)
  deriving DecidableEq

/-- Parse an optional exponent part `e`/`E` sign digits (the digits again
with the underscore rule) and scale the mantissa; anything left over is a
parse error. -/
def parseExp (m : ℚ) : List Char → Option ℚ
  | [] => some m
  | c :: rest =>
    if c = 'e' || c = 'E' then
      let sl := pySign rest
      match digitRunGo sl.2 0 0 with
      | some (ev, cnt, []) =>
        if cnt = 0 then none
        else some (if sl.1 then m / 10 ^ ev else m * 10 ^ ev)
      | _ => none
    else none

/-- Parse the unsigned numeric part of a float literal: integer digits,
optional `.` and fraction digits (at least one digit in total), optional
exponent. Returns the exact rational value. -/
def pyFloatNum (l : List Char) : Option ℚ :=
  match digitRunGo l 0 0 with
  | none => none
  | some (ip, ic, rest) =>
    match rest with
    | '.' :: rest2 =>
      match digitRunGo rest2 0 0 with
      | none => none
      | some (fp, fc, rest3) =>
        if ic + fc = 0 then none
        else parseExp (((ip : ℚ) * 10 ^ fc + (fp : ℚ)) / 10 ^ fc) rest3
    | _ => if ic = 0 then none else parseExp (ip : ℚ) rest

/-- Python `float(str)`: strip whitespace, optional sign, then the
case-insensitive special words `inf`/`infinity`/`nan` or a numeric literal;
`ValueError` is `none`. A huge exponent simply makes the exact rational
huge (CPython overflows such literals to `inf`, whose sign test agrees with
the huge rational's, so the distinction is invisible to the engine). -/
def pyFloat (s : String) : Option PFloat :=
  let sl := pySign (stripPyWs s.data)
  let low := sl.2.map Char.toLower
  if low = "inf".data || low = "infinity".data then
    some (if sl.1 then PFloat.ninf else PFloat.inf)
  else if low = "nan".data then some PFloat.nan
  else
    match pyFloatNum sl.2 with
    | some q => some (PFloat.fin (if sl.1 then -q else q))
    | none => none

/-- The positive rationals that IEEE-754 double conversion rounds to `+0.0`
are exactly those at most `2 ^ (-1075)` (half of the smallest subnormal;
the tie rounds to the even significand, zero). -/
def floatTieZero : ℚ := 1 / 2 ^ 1075

/-- The truth value of the source's float comparison `amount <= 0` on the
parsed value: false for nan (every comparison with nan is false) and for
`+inf`; true for `-inf`; for a finite literal, true exactly when the
rational value is at most `floatTieZero`, because positive values up to
that bound convert to `+0.0`. -/
def pyLe0 : PFloat → Bool
  | PFloat.nan => false
  | PFloat.inf => false
  | PFloat.ninf => true
  | PFloat.fin q => decide (q ≤ floatTieZero)

/-- Python `str.split(sep)` for a one-character separator: split at every
occurrence, keeping empty pieces. -/
def pySplit (sep : Char) : List Char → List (List Char)
  | [] => [[]]
  | c :: rest =>
    if c = sep then [] :: pySplit sep rest
    else
      match pySplit sep rest with
      | h :: t => (c :: h) :: t
      | [] => [[c]]

/-- `validate_amount(amount_str)`: `float` the string (failure → false),
reject when `amount <= 0`, and when the string contains a `.` require the
piece after the first `.` (Python's `split(".")[1]`) to have at most two
characters. -/
def validate_amount (s : String) : Bool :=
  match pyFloat s with
  | none => false
  | some amount =>
    if pyLe0 amount then false
    else
      if s.data.contains '.' then
        decide ((((pySplit '.' s.data).get? 1).getD []).length ≤ 2)
      else true

/-- The amount predicate as the specification's claim words it: the string
parses as a decimal number — a finite value, so neither nan nor an
infinity — that is strictly positive, and when the string contains a
decimal point the part after it has at most two digits. -/
def claim_amount (s : String) : Bool :=
  match pyFloat s with
  | some (PFloat.fin q) =>
    decide (0 < q) &&
      (if s.data.contains '.' then
        decide ((((pySplit '.' s.data).get? 1).getD []).length ≤ 2)
      else true)
  | _ => false

/-- `handle_ussd_request(session_data)`: read the event fields with their
defaults, then dispatch in the source's order: empty sessionid, gateway
termination (`msgtype` falsy), session start (empty `msg`), and finally the
numeric menu selection with `int(msg)` (`ValueError` caught as the invalid
input branch). The pair carries the store as updated by
`get_ussd_session`. -/
def handle_ussd_request (ev : Event) (st : Store) : UssdResponse × Store :=
  let sessionid := ev.sessionid.getD ""
  let msg := ev.msg.getD ""
  let msgtype := ev.msgtype.getD true
  if sessionid = "" then
    (create_ussd_response "Session error occurred" false none, st)
  else if msgtype = false then
    (create_ussd_response "Session has ended. Thank you!" false none, st)
  else
    let pair := get_ussd_session sessionid st
    if msg = "" then
      (create_ussd_response
        (create_ussd_menu "Welcome to Nalo Services"
          ["Check Balance", "Send Money", "Buy Airtime", "Help"] none)
        true (some sessionid), pair.2)
    else
      match pyInt msg with
      | some selection =>
        if selection ∈ ([1, 2, 3, 4] : List Int) then
          if selection = 1 then
            (create_ussd_response "Your balance is GHS 100.00" false
              (some sessionid), pair.2)
          else if selection = 4 then
            (create_ussd_response "For help, call 123. Thank you!" false
              (some sessionid), pair.2)
          else
            (create_ussd_response "Service not available. Thank you!" false
              (some sessionid), pair.2)
        else
          (create_ussd_response "Invalid selection. Please try again." false
            (some sessionid), pair.2)
      | none =>
        (create_ussd_response "Invalid input. Please enter a number." false
          (some sessionid), pair.2)

/-- The value the last entry of a field list writes under a key, if any:
later entries win, matching a left-to-right fold of dict updates. -/
def lastVal (k : String) : List (String × PyVal) → Option PyVal
  | [] => none
  | kv :: rest =>
    match lastVal k rest with
    | some v => some v
    | none => if kv.1 = k then some kv.2 else none

theorem dictGet_dictSet_self {α : Type} (d : List (String × α)) (k : String) (v : α) :
    dictGet (dictSet d k v) k = some v := by
  induction d with
  | nil => simp [dictGet, dictSet]
  | cons kv rest ih =>
    by_cases h : kv.1 = k
    · simp [dictSet, dictGet, h]
    · simp [dictSet, dictGet, h, ih]

theorem dictGet_dictSet_ne {α : Type} (d : List (String × α)) (k k2 : String)
    (v : α) (h : k2 ≠ k) : dictGet (dictSet d k v) k2 = dictGet d k2 := by
  have h2 : ¬k = k2 := fun e => h e.symm
  induction d with
  | nil => simp [dictGet, dictSet, h2]
  | cons kv rest ih =>
    by_cases hk : kv.1 = k
    · subst hk
      simp [dictSet, dictGet, h2]
    · by_cases hk2 : kv.1 = k2 <;> simp [dictSet, dictGet, hk, hk2, ih, h]

theorem dictGet_dictDel_self {α : Type} (d : List (String × α)) (k : String) :
    dictGet (dictDel d k) k = none := by
  induction d with
  | nil => simp [dictGet, dictDel]
  | cons kv rest ih =>
    by_cases h : kv.1 = k
    · simpa [dictDel, h] using ih
    · simpa [dictDel, dictGet, h] using ih

theorem clear_absent (s : String) (st : Store) (h : dictGet st s = none) :
    clear_ussd_session s st = st := by
  simp [clear_ussd_session, h]

theorem dictGet_clear (s : String) (st : Store) :
    dictGet (clear_ussd_session s st) s = none := by
  unfold clear_ussd_session
  cases h : dictGet st s with
  | none => simpa using h
  | some sess => simpa using dictGet_dictDel_self st s

/-- C5: for every sessionid `s`, `get_ussd_session` creates, stores and
returns the fresh session `{step: 0, data: {}}` when `s` is absent from the
store, and returns the stored session verbatim (with the store untouched)
when `s` is present; being a total function it never fails. -/
theorem get_ussd_session_spec (s : String) (st : Store) :
    (dictGet st s = none →
      get_ussd_session s st =
        ({ step := PyVal.int 0, data := [] },
          dictSet st s { step := PyVal.int 0, data := [] }) ∧
      dictGet (get_ussd_session s st).2 s =
        some { step := PyVal.int 0, data := [] }) ∧
    (∀ sess, dictGet st s = some sess → get_ussd_session s st = (sess, st)) := by
  constructor
  · intro h
    constructor
    · simp [get_ussd_session, h]
    · simp [get_ussd_session, h, dictGet_dictSet_self]
  · intro sess h
    simp [get_ussd_session, h]

theorem get_ussd_session_spec_check :
    get_ussd_session "s1" [] =
      ({ step := PyVal.int 0, data := [] },
        [("s1", { step := PyVal.int 0, data := [] })]) ∧
    get_ussd_session "s1" [("s1", { step := PyVal.int 7, data := [] })] =
      ({ step := PyVal.int 7, data := [] },
        [("s1", { step := PyVal.int 7, data := [] })]) := by
  constructor
  · exact ((get_ussd_session_spec "s1" []).1 rfl).1
  · exact (get_ussd_session_spec "s1"
      [("s1", { step := PyVal.int 7, data := [] })]).2 _ rfl

theorem foldl_applyField_step (fields : List (String × PyVal)) (sess : Session) :
    (fields.foldl applyField sess).step = (lastVal "step" fields).getD sess.step := by
  induction fields generalizing sess with
  | nil => simp [lastVal]
  | cons kv rest ih =>
    rw [List.foldl_cons, ih]
    by_cases h : kv.1 = "step" <;>
      · simp only [lastVal, h, applyField, if_pos, if_neg]
        cases lastVal "step" rest <;> simp [applyField, h]

theorem foldl_applyField_data (fields : List (String × PyVal)) (sess : Session)
    (k : String) (hk : k ≠ "step") :
    dictGet (fields.foldl applyField sess).data k =
      match lastVal k fields with
      | some v => some v
      | none => dictGet sess.data k := by
  induction fields generalizing sess with
  | nil => simp [lastVal]
  | cons kv rest ih =>
    rw [List.foldl_cons, ih]
    by_cases h : kv.1 = "step"
    · have hne : ¬kv.1 = k := by rw [h]; exact fun e => hk e.symm
      simp only [lastVal, hne, if_neg]
      cases lastVal k rest <;> simp [applyField, h]
    · by_cases h2 : kv.1 = k
      · simp only [lastVal, h2, if_pos]
        cases lastVal k rest <;>
          simp [applyField, h, h2, hk, dictGet_dictSet_self]
      · simp only [lastVal, h2, if_neg]
        cases lastVal k rest <;>
          simp [applyField, h, dictGet_dictSet_ne _ _ _ _ (fun e => h2 e.symm)]

/-- C6: `update_ussd_session` on a stored session writes every `"step"`
entry to the session's top-level step (the last such entry winning) and
every other entry into the `data` sub-mapping, and on an absent sessionid
it changes nothing and raises no error. -/
theorem update_ussd_session_spec (s : String) (fields : List (String × PyVal))
    (st : Store) :
    (dictGet st s = none → update_ussd_session s fields st = st) ∧
    (∀ sess, dictGet st s = some sess →
      ∃ sess2, dictGet (update_ussd_session s fields st) s = some sess2 ∧
        sess2.step = (lastVal "step" fields).getD sess.step ∧
        ∀ k, k ≠ "step" →
          dictGet sess2.data k =
            match lastVal k fields with
            | some v => some v
            | none => dictGet sess.data k) := by
  constructor
  · intro h
    simp [update_ussd_session, h]
  · intro sess h
    refine ⟨fields.foldl applyField sess, ?_, ?_, ?_⟩
    · simp [update_ussd_session, h, dictGet_dictSet_self]
    · exact foldl_applyField_step fields sess
    · intro k hk
      exact foldl_applyField_data fields sess k hk

theorem update_ussd_session_spec_check :
    ∃ sess2,
      dictGet
        (update_ussd_session "s2" [("step", PyVal.int 2), ("x", PyVal.str "y")]
          (get_ussd_session "s2" []).2) "s2" = some sess2 ∧
      sess2.step = PyVal.int 2 ∧
      dictGet sess2.data "x" = some (PyVal.str "y") := by
  obtain ⟨sess2, hget, hstep, hdata⟩ := (update_ussd_session_spec "s2"
    [("step", PyVal.int 2), ("x", PyVal.str "y")]
    (get_ussd_session "s2" []).2).2 { step := PyVal.int 0, data := [] } (by decide)
  refine ⟨sess2, hget, ?_, ?_⟩
  · rw [hstep]
    decide
  · rw [hdata "x" (by decide)]
    decide

/-- C7: `clear_ussd_session` is idempotent, leaves the store unchanged when
the sessionid is absent (raising no error), and a `get_ussd_session` right
after a clear always yields the fresh session `{step: 0, data: {}}` with no
residue. -/
theorem clear_ussd_session_spec (s : String) (st : Store) :
    (dictGet st s = none → clear_ussd_session s st = st) ∧
    clear_ussd_session s (clear_ussd_session s st) = clear_ussd_session s st ∧
    (get_ussd_session s (clear_ussd_session s st)).1 =
      { step := PyVal.int 0, data := [] } := by
  refine ⟨?_, ?_, ?_⟩
  · intro h
    exact clear_absent s st h
  · exact clear_absent s (clear_ussd_session s st) (dictGet_clear s st)
  · have h := dictGet_clear s st
    simp [get_ussd_session, h]

theorem clear_ussd_session_spec_check :
    clear_ussd_session "s3" [] = [] ∧
    (get_ussd_session "s3"
      (clear_ussd_session "s3"
        [("s3", { step := PyVal.int 5, data := [("a", PyVal.str "b")] })])).1 =
      { step := PyVal.int 0, data := [] } := by
  constructor
  · exact (clear_ussd_session_spec "s3" []).1 rfl
  · exact (clear_ussd_session_spec "s3"
      [("s3", { step := PyVal.int 5, data := [("a", PyVal.str "b")] })]).2.2

/-- C1: `handle_ussd_request` dispatches in fixed precedence, first match
wins: an empty sessionid (whatever `msg` and `msgtype` hold) yields an END
response with the error text and no sessionid key; otherwise a false
`msgtype` (whatever `msg` holds) yields an END response with the closing
message; otherwise an empty `msg` yields a CON response carrying the
welcome menu and echoing the event's sessionid; only past those guards is
`msg` read as a menu selection. -/
theorem handle_ussd_request_precedence (ev : Event) (st : Store) :
    (ev.sessionid.getD "" = "" →
      (handle_ussd_request ev st).1 =
        { response := "END", message := "Session error occurred",
          sessionid := none }) ∧
    (ev.sessionid.getD "" ≠ "" → ev.msgtype.getD true = false →
      (handle_ussd_request ev st).1 =
        { response := "END", message := "Session has ended. Thank you!",
          sessionid := none }) ∧
    (ev.sessionid.getD "" ≠ "" → ev.msgtype.getD true = true →
      ev.msg.getD "" = "" →
      (handle_ussd_request ev st).1 =
        { response := "CON",
          message := create_ussd_menu "Welcome to Nalo Services"
            ["Check Balance", "Send Money", "Buy Airtime", "Help"] none,
          sessionid := some (ev.sessionid.getD "") }) := by
  refine ⟨?_, ?_, ?_⟩
  · intro h
    simp [handle_ussd_request, create_ussd_response, h]
  · intro h1 h2
    simp [handle_ussd_request, create_ussd_response, h1, h2]
  · intro h1 h2 h3
    simp [handle_ussd_request, create_ussd_response, h1, h2, h3]

theorem handle_ussd_request_precedence_check :
    (handle_ussd_request
      { sessionid := some "", msisdn := none, msg := some "1",
        msgtype := some true } []).1 =
      { response := "END", message := "Session error occurred",
        sessionid := none } ∧
    (handle_ussd_request
      { sessionid := some "A", msisdn := none, msg := some "1",
        msgtype := some false } []).1 =
      { response := "END", message := "Session has ended. Thank you!",
        sessionid := none } ∧
    (handle_ussd_request
      { sessionid := some "A", msisdn := none, msg := some "",
        msgtype := some true } []).1 =
      { response := "CON",
        message := create_ussd_menu "Welcome to Nalo Services"
          ["Check Balance", "Send Money", "Buy Airtime", "Help"] none,
        sessionid := some "A" } := by
  refine ⟨?_, ?_, ?_⟩
  · exact (handle_ussd_request_precedence
      { sessionid := some "", msisdn := none, msg := some "1",
        msgtype := some true } []).1 rfl
  · exact (handle_ussd_request_precedence
      { sessionid := some "A", msisdn := none, msg := some "1",
        msgtype := some false } []).2.1 (by decide) rfl
  · exact (handle_ussd_request_precedence
      { sessionid := some "A", msisdn := none, msg := some "",
        msgtype := some true } []).2.2 (by decide) rfl rfl

/-- C2: with a non-empty sessionid, true `msgtype` and a `msg` that parses
as an integer in {1, 2, 3, 4}, `handle_ussd_request` returns an END
response echoing the sessionid, whose message is the balance text for 1,
the help text for 4 and the "service not available" text for 2 and 3; in
particular no valid selection returns CON. -/
theorem handle_ussd_request_menu_selection (ev : Event) (st : Store) (n : Int)
    (hsid : ev.sessionid.getD "" ≠ "")
    (hmt : ev.msgtype.getD true = true)
    (hn : pyInt (ev.msg.getD "") = some n)
    (hmem : n ∈ ([1, 2, 3, 4] : List Int)) :
    (handle_ussd_request ev st).1 =
      { response := "END",
        message :=
          if n = 1 then "Your balance is GHS 100.00"
          else if n = 4 then "For help, call 123. Thank you!"
          else "Service not available. Thank you!",
        sessionid := some (ev.sessionid.getD "") } := by
  have hmsg : ev.msg.getD "" ≠ "" := by
    intro h
    rw [h, show pyInt "" = none from by decide] at hn
    exact Option.noConfusion hn
  rcases (show n = 1 ∨ n = 2 ∨ n = 3 ∨ n = 4 by simpa using hmem) with
    rfl | rfl | rfl | rfl <;>
    simp [handle_ussd_request, create_ussd_response, hsid, hmt, hmsg, hn]

theorem handle_ussd_request_menu_selection_check :
    (handle_ussd_request
      { sessionid := some "A", msisdn := none, msg := some "1",
        msgtype := some true } []).1 =
      { response := "END", message := "Your balance is GHS 100.00",
        sessionid := some "A" } := by
  have h := handle_ussd_request_menu_selection
    { sessionid := some "A", msisdn := none, msg := some "1",
      msgtype := some true } [] 1 (by decide) rfl (by decide) (by decide)
  simpa using h

/-- C3: with a non-empty sessionid, true `msgtype` and a non-empty `msg`,
`handle_ussd_request` returns an END response echoing the sessionid whose
message is the "Invalid selection" text when `msg` parses as an integer
outside {1, 2, 3, 4}, and the "Invalid input" text when `msg` does not
parse as an integer at all. -/
theorem handle_ussd_request_invalid (ev : Event) (st : Store)
    (hsid : ev.sessionid.getD "" ≠ "")
    (hmt : ev.msgtype.getD true = true)
    (hmsg : ev.msg.getD "" ≠ "") :
    (∀ n : Int, pyInt (ev.msg.getD "") = some n →
      n ∉ ([1, 2, 3, 4] : List Int) →
      (handle_ussd_request ev st).1 =
        { response := "END", message := "Invalid selection. Please try again.",
          sessionid := some (ev.sessionid.getD "") }) ∧
    (pyInt (ev.msg.getD "") = none →
      (handle_ussd_request ev st).1 =
        { response := "END", message := "Invalid input. Please enter a number.",
          sessionid := some (ev.sessionid.getD "") }) := by
  constructor
  · intro n hn hout
    simp [handle_ussd_request, create_ussd_response, hsid, hmt, hmsg, hn, hout]
  · intro hn
    simp [handle_ussd_request, create_ussd_response, hsid, hmt, hmsg, hn]

theorem handle_ussd_request_invalid_check :
    (handle_ussd_request
      { sessionid := some "A", msisdn := none, msg := some "9",
        msgtype := some true } []).1 =
      { response := "END", message := "Invalid selection. Please try again.",
        sessionid := some "A" } ∧
    (handle_ussd_request
      { sessionid := some "A", msisdn := none, msg := some "abc",
        msgtype := some true } []).1 =
      { response := "END", message := "Invalid input. Please enter a number.",
        sessionid := some "A" } := by
  constructor
  · exact (handle_ussd_request_invalid
      { sessionid := some "A", msisdn := none, msg := some "9",
        msgtype := some true } [] (by decide) rfl (by decide)).1 9
      (by decide) (by decide)
  · exact (handle_ussd_request_invalid
      { sessionid := some "A", msisdn := none, msg := some "abc",
        msgtype := some true } [] (by decide) rfl (by decide)).2 (by decide)

/-- C4: `handle_ussd_request` is a total function of the event (any
combination of present and absent fields) and the store: every input
produces a response dictionary whose `response` field is "CON" or "END"
and whose `message` field is a string (by the result type); the embedding
has no failure path, matching the code in which the only raisable error,
`int(msg)`'s ValueError, is caught. -/
theorem handle_ussd_request_total (ev : Event) (st : Store) :
    (handle_ussd_request ev st).1.response = "CON" ∨
    (handle_ussd_request ev st).1.response = "END" := by
  by_cases h1 : ev.sessionid.getD "" = ""
  · simp [handle_ussd_request, create_ussd_response, h1]
  · by_cases h2 : ev.msgtype.getD true = false
    · simp [handle_ussd_request, create_ussd_response, h1, h2]
    · by_cases h3 : ev.msg.getD "" = ""
      · simp [handle_ussd_request, create_ussd_response, h1, h2, h3]
      · cases h4 : pyInt (ev.msg.getD "") with
        | none => simp [handle_ussd_request, create_ussd_response, h1, h2, h3, h4]
        | some n =>
          by_cases h5 : n ∈ ([1, 2, 3, 4] : List Int) <;>
            by_cases h6 : n = 1 <;> by_cases h7 : n = 4 <;>
            simp [handle_ussd_request, create_ussd_response,
              h1, h2, h3, h4, h5, h6, h7]

/-- C10: the response of `handle_ussd_request` depends only on the inbound
event, never on the stored session contents: the same event against any two
stores yields the same response dictionary (`get_ussd_session` is called
but its result is never read). -/
theorem handle_ussd_request_store_blind (ev : Event) (st1 st2 : Store) :
    (handle_ussd_request ev st1).1 = (handle_ussd_request ev st2).1 := by
  by_cases h1 : ev.sessionid.getD "" = ""
  · simp [handle_ussd_request, h1]
  · by_cases h2 : ev.msgtype.getD true = false
    · simp [handle_ussd_request, h1, h2]
    · by_cases h3 : ev.msg.getD "" = ""
      · simp [handle_ussd_request, h1, h2, h3]
      · cases h4 : pyInt (ev.msg.getD "") with
        | none => simp [handle_ussd_request, h1, h2, h3, h4]
        | some n =>
          simp [handle_ussd_request, h1, h2, h3, h4]
          split_ifs <;> rfl

theorem string_append_assoc (a b c : String) : a ++ b ++ c = a ++ (b ++ c) :=
  String.ext (List.append_assoc a.data b.data c.data)

theorem string_append_empty (a : String) : a ++ "" = a :=
  String.ext (List.append_nil a.data)

theorem string_empty_append (a : String) : "" ++ a = a :=
  String.ext (List.nil_append a.data)

theorem string_foldl_append (l : List String) (a b : String) :
    l.foldl (fun r s => r ++ s) (a ++ b) = a ++ l.foldl (fun r s => r ++ s) b := by
  induction l generalizing b with
  | nil => simp
  | cons c rest ih =>
    simp only [List.foldl_cons]
    rw [string_append_assoc, ih]

theorem string_join_cons (a : String) (l : List String) :
    String.join (a :: l) = a ++ String.join l := by
  have h := string_foldl_append l a ""
  rw [string_append_empty] at h
  simp only [String.join, List.foldl_cons, string_empty_append]
  exact h

theorem menuLines_eq (options : List String) (i : Nat) :
    menuLines i options =
      String.join ((List.enumFrom i options).map
        (fun p => toString p.1 ++ ". " ++ p.2 ++ "\\n")) := by
  induction options generalizing i with
  | nil => rfl
  | cons o rest ih =>
    simp only [menuLines, List.enumFrom, List.map_cons, string_join_cons, ih]

/-- C8 counterexample: the claim says the menu's parts are separated by
newline characters, but `create_ussd_menu "T" ["A"]` yields the nine
characters `T`, `\`, `n`, `1`, `.`, space, `A`, `\`, `n` — the separators
are the literal two-character sequence backslash-`n` (the source's `\\n`
escape inside a normal f-string) and the menu contains no newline
character at all. -/
theorem create_ussd_menu_no_newline :
    create_ussd_menu "T" ["A"] none = "T\\n1. A\\n" ∧
    ((create_ussd_menu "T" ["A"] none).data.contains '\n') = false := by
  constructor
  · rfl
  · rfl

/-- C8 as amended: `create_ussd_menu` returns the title, then one part per
option formatted "<1-based index>. <option text>" in list order, then an
optional trailing footer (preceded by an extra separator and added only
when non-empty) — with every separator being the literal two-character
sequence `\n` (backslash then `n`), not a newline character. -/
theorem create_ussd_menu_literal (title : String) (options : List String)
    (footer : Option String) :
    create_ussd_menu title options footer =
      String.join ((title :: (List.enumFrom 1 options).map
          (fun p => toString p.1 ++ ". " ++ p.2)).map
        (fun line => line ++ "\\n")) ++
      (match footer with
       | some f => if f = "" then "" else "\\n" ++ f
       | none => "") := by
  have hbase :
      title ++ "\\n" ++ menuLines 1 options =
        String.join ((title :: (List.enumFrom 1 options).map
            (fun p => toString p.1 ++ ". " ++ p.2)).map
          (fun line => line ++ "\\n")) := by
    rw [List.map_cons, string_join_cons, List.map_map]
    simp only [Function.comp_def]
    rw [← menuLines_eq]
  simp only [create_ussd_menu]
  cases footer with
  | none =>
    rw [string_append_empty]
    exact hbase
  | some f =>
    by_cases hf : f = ""
    · simp only [hf, if_pos]
      rw [string_append_empty]
      exact hbase
    · simp only [if_neg hf]
      rw [hbase, string_append_assoc]

/-- C9 counterexample: the claim says `validate_amount` accepts exactly the
strictly positive decimal numbers (with the fractional-digit bound), but
the code accepts "nan": Python's `float("nan")` succeeds and `nan <= 0` is
false, so every guard passes, while "nan" is not a decimal number at all
(its parse is the non-finite value nan). -/
theorem validate_amount_nan :
    validate_amount "nan" = true ∧ claim_amount "nan" = false := by
  constructor
  · rfl
  · rfl

/-- C9 as amended: `validate_amount` returns true iff the string parses via
Python float conversion as nan, as positive infinity, or as a finite
decimal value strictly above `2 ^ (-1075)` (positivity is judged on the
converted double, so tiny positive literals that underflow to `0.0` are
rejected), and — when the string contains a decimal point — the piece
between the first `.` and the next `.` or the end has at most two
characters. -/
theorem validate_amount_iff (s : String) :
    validate_amount s = true ↔
      ∃ v, pyFloat s = some v ∧
        (v = PFloat.nan ∨ v = PFloat.inf ∨
          ∃ q, v = PFloat.fin q ∧ floatTieZero < q) ∧
        (s.data.contains '.' = true →
          (((pySplit '.' s.data).get? 1).getD []).length ≤ 2) := by
  unfold validate_amount
  cases h : pyFloat s with
  | none => simp
  | some v =>
    cases v with
    | nan =>
      simp [pyLe0]
      tauto
    | inf =>
      simp [pyLe0]
      tauto
    | ninf => simp [pyLe0]
    | fin q =>
      by_cases hq : q ≤ floatTieZero
      · simp [pyLe0, hq, not_lt.2 hq]
      · have hq2 : floatTieZero < q := not_le.1 hq
        simp [pyLe0, hq, hq2]
        tauto

end Nunyakata
